import Mathlib

/-!
Verification development for the Engine orchestration actor of
`scylla-usearch` (`src/engine.rs`).

The Engine is a single-threaded message loop owning two registries
(`indexes : HashMap<IndexId, Sender<Index>>` and
`monitors : HashMap<IndexId, Sender<MonitorItems>>`).  We embed the loop
shallowly: registries become association lists with unique keys, side
effects (supervisor attachment, actor stop, task join, persistence
deletion, replies, logging) become an explicit event trace, and the
fallible external constructors (`index::new`, `monitor_items::new`)
become parameters of the step function returning `Option` handles.
-/

/-- `IndexId` — opaque identifier with equality/hash, embedded as `Nat`. -/
abbrev IndexId := Nat

/-- An actor handle (`mpsc::Sender<_>`), abstracted to an opaque token. -/
abbrev Handle := Nat

/-- `ColumnName` — a column name, embedded as `String`. -/
abbrev ColumnName := String

/-- Observable side effects performed by `engine::new` and by the Engine
message loop, in program order.  `attach h` is `supervisor_actor.attach(h, task)`;
`actorStop h` is `h.actor_stop().await` (sending the distinguished stop message);
`taskJoin h` is awaiting the task joined to handle `h`; `modifyDel id` is
`modify_actor.del(id).await`; the `insert…`/`remove…` events mark the registry
mutations; `reply…` are the oneshot answers; `callIndexNew`/`callMonitorItemsNew`
mark invocations of the external constructors; `closeMailbox` is `rx.close()`. -/
inductive Event where
  | attach (h : Handle)
  | actorStop (h : Handle)
  | taskJoin (h : Handle)
  | modifyDel (id : IndexId)
  | insertIndexes (id : IndexId)
  | insertMonitors (id : IndexId)
  | removeIndexes (id : IndexId)
  | removeMonitors (id : IndexId)
  | replyIndexes (ids : List IndexId)
  | replyIndex (h : Option Handle)
  | callIndexNew
  | callMonitorItemsNew
  | logError
  | logWarn
  | spawnLoop
  | closeMailbox
  deriving DecidableEq, Repr

/-- The payload of `Engine::AddIndex` (the `IndexDefinition` fields carried
by the create request in `engine.rs`). -/
structure AddParams where
  id : IndexId
  col_id : ColumnName
  col_emb : ColumnName
  dimensions : Nat
  connectivity : Nat
  expansion_add : Nat
  expansion_search : Nat
  deriving DecidableEq, Repr

/-- The `Engine` message enum of `engine.rs` (the oneshot reply senders are
implicit: replies are recorded as trace events). -/
inductive Engine where
  | getIndexes
  | addIndex (p : AddParams)
  | delIndex (id : IndexId)
  | getIndex (id : IndexId)
  | stop
  deriving DecidableEq, Repr

/-- The Engine loop's private state: the two registries, as association
lists (`HashMap` with unique keys). -/
structure EngineState where
  indexes : List (IndexId × Handle)
  monitors : List (IndexId × Handle)
  deriving DecidableEq, Repr

/-- The initial state of the loop: `HashMap::new()` twice. -/
def emptyState : EngineState := ⟨[], []⟩

/-- Keys of a registry, in insertion order. -/
def keysOf (l : List (IndexId × Handle)) : List IndexId := l.map Prod.fst

/-- `HashMap::get`: the value stored under a key, if any. -/
def lookupId : List (IndexId × Handle) → IndexId → Option Handle
  | [], _ => none
  | (k, v) :: rest, id => if k = id then some v else lookupId rest id

/-- `HashMap::remove` (the mutation part): drop the entry under a key. -/
def removeId : List (IndexId × Handle) → IndexId → List (IndexId × Handle)
  | [], _ => []
  | (k, v) :: rest, id => if k = id then rest else (k, v) :: removeId rest id

/-- The environment of external fallible constructors consumed by the
`AddIndex` handler: `index::new(id, modify_actor, dimensions, connectivity,
expansion_add, expansion_search)` and
`monitor_items::new(uri, table, col_id, col_emb, index_actor)`.
`none` models a construction error (`Err`). -/
structure Env where
  indexNew : IndexId → Nat → Nat → Nat → Nat → Option Handle
  monitorItemsNew : IndexId → ColumnName → ColumnName → Handle → Option Handle

/-- One iteration of the Engine match: handle one message, returning the
new state, the emitted event trace, and whether `rx.close()` was called
(true exactly for `Engine::Stop`).  This is a line-by-line embedding of the
`match msg` block of `engine.rs`. -/
def handleMsg (env : Env) (s : EngineState) : Engine → EngineState × List Event × Bool
  | .getIndexes => (s, [.replyIndexes (keysOf s.indexes)], false)
  | .addIndex p =>
    if p.id ∈ keysOf s.indexes then
      (s, [], false)
    else
      match env.indexNew p.id p.dimensions p.connectivity p.expansion_add p.expansion_search with
      | none => (s, [.callIndexNew, .logError], false)
      | some index_actor =>
        match env.monitorItemsNew p.id p.col_id p.col_emb index_actor with
        | none =>
          (s, [.callIndexNew, .callMonitorItemsNew, .logError,
               .actorStop index_actor, .taskJoin index_actor], false)
        | some monitor_actor =>
          ({ indexes := s.indexes ++ [(p.id, index_actor)],
             monitors := s.monitors ++ [(p.id, monitor_actor)] },
           [.callIndexNew, .callMonitorItemsNew,
            .attach index_actor, .attach monitor_actor,
            .insertIndexes p.id, .insertMonitors p.id], false)
  | .delIndex id =>
    let st1 :=
      match lookupId s.indexes id with
      | some index =>
        ({ s with indexes := removeId s.indexes id },
         [Event.removeIndexes id, Event.actorStop index])
      | none => (s, [])
    let st2 :=
      match lookupId st1.1.monitors id with
      | some monitor =>
        ({ st1.1 with monitors := removeId st1.1.monitors id },
         [Event.removeMonitors id, Event.actorStop monitor])
      | none => (st1.1, [])
    (st2.1, st1.2 ++ st2.2 ++ [Event.modifyDel id], false)
  | .getIndex id => (s, [.replyIndex (lookupId s.indexes id)], false)
  | .stop => (s, [.closeMailbox], true)

/-- The `while let Some(msg) = rx.recv().await` loop over the messages
already accepted into the mailbox.  `closed` tracks whether `rx.close()`
has run; after `close` the remaining buffered messages are still drained
(tokio mpsc semantics).  Returns the final state, the final closed flag,
and the concatenated event trace. -/
def runLoop (env : Env) : EngineState → Bool → List Engine → EngineState × Bool × List Event
  | s, closed, [] => (s, closed, [])
  | s, closed, m :: rest =>
    let step := handleMsg env s m
    let tail := runLoop env step.1 (closed || step.2.2) rest
    (tail.1, tail.2.1, step.2.1 ++ tail.2.2)

/-- `mpsc::Sender::send` against the mailbox: succeeds and enqueues while
the receiver is open, fails (leaving the queue unchanged) once `rx.close()`
has run.  Returns whether the send succeeded and the new queue. -/
def sendMsg (closed : Bool) (queue : List Engine) (m : Engine) : Bool × List Engine :=
  if closed then (false, queue) else (true, queue ++ [m])

/-- `EngineExt::get_indexes` on `mpsc::Sender<Engine>`: `sendOk` is whether
`self.send(…).await` succeeded; `reply` is `some v` when the oneshot
resolved with `v` and `none` when the reply channel was dropped.
The body is `rx.await.unwrap_or(Vec::new())` guarded by the send. -/
def get_indexes (sendOk : Bool) (reply : Option (List IndexId)) : List IndexId :=
  if sendOk then reply.getD [] else []

/-- `EngineExt::get_index`: the body is `rx.await.ok().flatten()` guarded
by the send. -/
def get_index (sendOk : Bool) (reply : Option (Option Handle)) : Option Handle :=
  if sendOk then reply.getD none else none

/-- `EngineExt::add_index`: fire-and-forget; on send failure it logs a
warning (`unable to send request`) and returns `()`.  The returned trace
records the log. -/
def add_index (sendOk : Bool) : Unit × List Event :=
  if sendOk then ((), []) else ((), [.logWarn])

/-- `EngineExt::del_index`: fire-and-forget; on send failure it logs a
warning and returns `()`. -/
def del_index (sendOk : Bool) : Unit × List Event :=
  if sendOk then ((), []) else ((), [.logWarn])

/-- `engine::new`: constructs and attaches, in order, the index-definitions
monitor (`monitor_indexes::new`), the persistence actor
(`modify_indexes::new`) and the queries monitor (`monitor_queries::new`),
then spawns the processing loop.  Each argument is the outcome of the
corresponding external constructor (`none` models `Err`, propagated by
`?`).  Returns whether `new` returned `Ok` plus the event trace. -/
def engineNew (mi modi mq : Option Handle) : Bool × List Event :=
  match mi with
  | none => (false, [])
  | some monitor_actor =>
    match modi with
    | none => (false, [.attach monitor_actor])
    | some modify_actor =>
      match mq with
      | none => (false, [.attach monitor_actor, .attach modify_actor])
      | some queries_actor =>
        (true, [.attach monitor_actor, .attach modify_actor,
                .attach queries_actor, .spawnLoop])

/-- Messages that carry a oneshot reply channel. -/
def expectsReply : Engine → Bool
  | .getIndexes => true
  | .getIndex _ => true
  | _ => false

/-- Events that are oneshot replies. -/
def isReplyEvent : Event → Bool
  | .replyIndexes _ => true
  | .replyIndex _ => true
  | _ => false

/-- Whether a message is the distinguished `Stop`. -/
def isStopMsg : Engine → Bool
  | .stop => true
  | _ => false

/-- Well-formedness of the loop state: registry keys are duplicate-free
(`HashMap` keys) and the two key sets agree (the pairing invariant). -/
def WF (s : EngineState) : Prop :=
  (keysOf s.indexes).Nodup ∧ (keysOf s.monitors).Nodup ∧
    ∀ k, k ∈ keysOf s.indexes ↔ k ∈ keysOf s.monitors

/-- A sample environment where both external constructors succeed. -/
def envAllOk : Env := ⟨fun _ _ _ _ _ => some 100, fun _ _ _ _ => some 200⟩

/-- A sample environment where `index::new` fails. -/
def envIndexFail : Env := ⟨fun _ _ _ _ _ => none, fun _ _ _ _ => some 200⟩

/-- A sample environment where `index::new` succeeds but
`monitor_items::new` fails. -/
def envMonitorFail : Env := ⟨fun _ _ _ _ _ => some 100, fun _ _ _ _ => none⟩

/-- A sample `AddIndex` payload (the scenario of the spec's §8). -/
def pSample : AddParams := ⟨1, "pk", "vec", 128, 16, 200, 50⟩

/-! ### Registry lemmas -/

theorem keysOf_append (l1 l2 : List (IndexId × Handle)) :
    keysOf (l1 ++ l2) = keysOf l1 ++ keysOf l2 :=
  List.map_append _ _ _

theorem keysOf_cons (k : IndexId) (v : Handle) (l : List (IndexId × Handle)) :
    keysOf ((k, v) :: l) = k :: keysOf l := rfl

theorem keysOf_nil : keysOf [] = [] := rfl

theorem lookupId_eq_none (l : List (IndexId × Handle)) (id : IndexId) :
    lookupId l id = none ↔ id ∉ keysOf l := by
  induction l with
  | nil => simp [lookupId, keysOf]
  | cons kv rest ih =>
    obtain ⟨k, v⟩ := kv
    by_cases h : k = id
    · subst h
      simp [lookupId, keysOf]
    · have h' : id ≠ k := fun he => h he.symm
      simp [lookupId, keysOf, h, h', ih]

theorem lookupId_mem_keysOf (l : List (IndexId × Handle)) (id : IndexId) (v : Handle)
    (h : lookupId l id = some v) : id ∈ keysOf l := by
  by_contra hmem
  rw [← lookupId_eq_none] at hmem
  rw [hmem] at h
  exact Option.noConfusion h

theorem keysOf_removeId_subset (l : List (IndexId × Handle)) (id k : IndexId)
    (h : k ∈ keysOf (removeId l id)) : k ∈ keysOf l := by
  induction l with
  | nil => exact h
  | cons kv rest ih =>
    obtain ⟨k1, v1⟩ := kv
    by_cases he : k1 = id
    · subst he
      simp only [removeId, if_pos rfl] at h
      exact List.mem_cons_of_mem _ h
    · simp only [removeId, if_neg he, keysOf, List.map_cons, List.mem_cons] at h ⊢
      rcases h with h | h
      · exact Or.inl h
      · exact Or.inr (ih h)

theorem nodup_keysOf_removeId (l : List (IndexId × Handle)) (id : IndexId)
    (h : (keysOf l).Nodup) : (keysOf (removeId l id)).Nodup := by
  induction l with
  | nil => exact h
  | cons kv rest ih =>
    obtain ⟨k1, v1⟩ := kv
    simp only [keysOf_cons, List.nodup_cons] at h
    by_cases he : k1 = id
    · simp only [removeId, if_pos he]
      exact h.2
    · simp only [removeId, if_neg he, keysOf_cons, List.nodup_cons]
      exact ⟨fun hmem => h.1 (keysOf_removeId_subset rest id k1 hmem), ih h.2⟩

theorem mem_keysOf_removeId (l : List (IndexId × Handle)) (id k : IndexId)
    (h : (keysOf l).Nodup) :
    k ∈ keysOf (removeId l id) ↔ k ∈ keysOf l ∧ k ≠ id := by
  induction l with
  | nil => simp [removeId, keysOf]
  | cons kv rest ih =>
    obtain ⟨k1, v1⟩ := kv
    simp only [keysOf_cons, List.nodup_cons] at h
    by_cases he : k1 = id
    · subst he
      simp only [removeId, if_pos rfl, keysOf_cons, List.mem_cons]
      constructor
      · intro hk
        exact ⟨Or.inr hk, fun he2 => h.1 (he2 ▸ hk)⟩
      · rintro ⟨hk | hk, hne⟩
        · exact absurd hk hne
        · exact hk
    · simp only [removeId, if_neg he, keysOf_cons, List.mem_cons, ih h.2]
      constructor
      · rintro (hk | ⟨hk, hne⟩)
        · exact ⟨Or.inl hk, hk ▸ he⟩
        · exact ⟨Or.inr hk, hne⟩
      · rintro ⟨hk | hk, hne⟩
        · exact Or.inl hk
        · exact Or.inr ⟨hk, hne⟩

theorem lookupId_append_self (l : List (IndexId × Handle)) (id : IndexId) (v : Handle)
    (h : id ∉ keysOf l) : lookupId (l ++ [(id, v)]) id = some v := by
  induction l with
  | nil => simp [lookupId]
  | cons kv rest ih =>
    obtain ⟨k1, v1⟩ := kv
    simp only [keysOf, List.map_cons, List.mem_cons, not_or] at h
    have hk : k1 ≠ id := fun he => h.1 he.symm
    simp only [List.cons_append, lookupId, if_neg hk]
    exact ih h.2

/-! ### Preservation of well-formedness -/

theorem WF_handleMsg (env : Env) (s : EngineState) (m : Engine) (h : WF s) :
    WF (handleMsg env s m).1 := by
  obtain ⟨h1, h2, h3⟩ := h
  cases m with
  | getIndexes => exact show WF s from ⟨h1, h2, h3⟩
  | getIndex id => exact show WF s from ⟨h1, h2, h3⟩
  | stop => exact show WF s from ⟨h1, h2, h3⟩
  | addIndex p =>
    by_cases hmem : p.id ∈ keysOf s.indexes
    · simp only [handleMsg, if_pos hmem]
      exact ⟨h1, h2, h3⟩
    · simp only [handleMsg, if_neg hmem]
      split
      · exact ⟨h1, h2, h3⟩
      · rename_i index_actor hidx
        split
        · exact ⟨h1, h2, h3⟩
        · rename_i monitor_actor hmon
          show WF ⟨s.indexes ++ [(p.id, index_actor)], s.monitors ++ [(p.id, monitor_actor)]⟩
          have hmem2 : p.id ∉ keysOf s.monitors := fun hx => hmem ((h3 p.id).mpr hx)
          refine ⟨?_, ?_, fun k => ?_⟩
          · show (keysOf (s.indexes ++ [(p.id, index_actor)])).Nodup
            rw [keysOf_append]
            simp only [List.nodup_append, keysOf_cons, keysOf_nil]
            exact ⟨h1, List.nodup_singleton _, by simpa using hmem⟩
          · show (keysOf (s.monitors ++ [(p.id, monitor_actor)])).Nodup
            rw [keysOf_append]
            simp only [List.nodup_append, keysOf_cons, keysOf_nil]
            exact ⟨h2, List.nodup_singleton _, by simpa using hmem2⟩
          · show k ∈ keysOf (s.indexes ++ [(p.id, index_actor)]) ↔
              k ∈ keysOf (s.monitors ++ [(p.id, monitor_actor)])
            rw [keysOf_append, keysOf_append]
            simp only [List.mem_append, keysOf_cons, keysOf_nil, List.mem_cons, h3 k]
  | delIndex id =>
    cases hli : lookupId s.indexes id with
    | none =>
      cases hlm : lookupId s.monitors id with
      | none =>
        simp only [handleMsg, hli, hlm]
        exact show WF s from ⟨h1, h2, h3⟩
      | some hm =>
        exact absurd ((h3 id).mpr (lookupId_mem_keysOf _ _ _ hlm))
          ((lookupId_eq_none _ _).mp hli)
    | some hi =>
      cases hlm : lookupId s.monitors id with
      | none =>
        exact absurd ((h3 id).mp (lookupId_mem_keysOf _ _ _ hli))
          ((lookupId_eq_none _ _).mp hlm)
      | some hm =>
        simp only [handleMsg, hli, hlm]
        show WF ⟨removeId s.indexes id, removeId s.monitors id⟩
        refine ⟨nodup_keysOf_removeId _ _ h1, nodup_keysOf_removeId _ _ h2, fun k => ?_⟩
        show k ∈ keysOf (removeId s.indexes id) ↔ k ∈ keysOf (removeId s.monitors id)
        rw [mem_keysOf_removeId _ _ _ h1, mem_keysOf_removeId _ _ _ h2, h3 k]

theorem WF_runLoop (env : Env) (s : EngineState) (closed : Bool) (msgs : List Engine)
    (h : WF s) : WF (runLoop env s closed msgs).1 := by
  induction msgs generalizing s closed with
  | nil => exact h
  | cons m rest ih => exact ih _ _ (WF_handleMsg env s m h)

theorem WF_emptyState : WF emptyState :=
  ⟨List.nodup_nil, List.nodup_nil, fun _ => Iff.rfl⟩

/-! ### Loop bookkeeping lemmas -/

theorem closeReq_handleMsg (env : Env) (s : EngineState) (m : Engine) :
    (handleMsg env s m).2.2 = isStopMsg m := by
  cases m with
  | getIndexes => rfl
  | getIndex id => rfl
  | stop => rfl
  | delIndex id => rfl
  | addIndex p =>
    simp only [handleMsg, isStopMsg]
    split
    · rfl
    · split
      · rfl
      · split
        · rfl
        · rfl

theorem replyCount_handleMsg (env : Env) (s : EngineState) (m : Engine) :
    ((handleMsg env s m).2.1).countP isReplyEvent = if expectsReply m then 1 else 0 := by
  cases m with
  | getIndexes =>
    simp [handleMsg, expectsReply, isReplyEvent, List.countP_cons, List.countP_nil]
  | getIndex id =>
    simp [handleMsg, expectsReply, isReplyEvent, List.countP_cons, List.countP_nil]
  | stop =>
    simp [handleMsg, expectsReply, isReplyEvent, List.countP_cons, List.countP_nil]
  | addIndex p =>
    simp only [handleMsg, expectsReply]
    split
    · simp [isReplyEvent, List.countP_cons, List.countP_nil]
    · split
      · simp [isReplyEvent, List.countP_cons, List.countP_nil]
      · split
        · simp [isReplyEvent, List.countP_cons, List.countP_nil]
        · simp [isReplyEvent, List.countP_cons, List.countP_nil]
  | delIndex id =>
    simp only [handleMsg, expectsReply]
    split
    · split
      · simp [isReplyEvent, List.countP_cons, List.countP_nil, List.countP_append]
      · simp [isReplyEvent, List.countP_cons, List.countP_nil, List.countP_append]
    · split
      · simp [isReplyEvent, List.countP_cons, List.countP_nil, List.countP_append]
      · simp [isReplyEvent, List.countP_cons, List.countP_nil, List.countP_append]

theorem replyCount_runLoop (env : Env) (s : EngineState) (closed : Bool)
    (msgs : List Engine) :
    ((runLoop env s closed msgs).2.2).countP isReplyEvent = msgs.countP expectsReply := by
  induction msgs generalizing s closed with
  | nil => simp [runLoop]
  | cons m rest ih =>
    simp only [runLoop]
    rw [List.countP_append, replyCount_handleMsg, ih, List.countP_cons]
    cases hm : expectsReply m
    · simp [hm]
    · simp [hm, Nat.add_comm]

theorem closed_runLoop (env : Env) (s : EngineState) (closed : Bool)
    (msgs : List Engine) :
    (runLoop env s closed msgs).2.1 = (closed || msgs.any isStopMsg) := by
  induction msgs generalizing s closed with
  | nil => simp [runLoop]
  | cons m rest ih =>
    simp only [runLoop, List.any_cons]
    rw [ih, closeReq_handleMsg, Bool.or_assoc]

/-! ### Claim theorems -/

/-- C1: pairing invariant — every message handler preserves well-formedness
(the key sets of `indexes` and `monitors` are equal and duplicate-free), the
initial state is well-formed, and consequently after processing any message
sequence from the empty registries the key set of `indexes` equals the key
set of `monitors`. -/
theorem pairing_invariant (env : Env) (closed : Bool) (msgs : List Engine) :
    (∀ s m, WF s → WF (handleMsg env s m).1) ∧ WF emptyState ∧
    ∀ k, (k ∈ keysOf ((runLoop env emptyState closed msgs).1).indexes ↔
          k ∈ keysOf ((runLoop env emptyState closed msgs).1).monitors) :=
  ⟨fun s m h => WF_handleMsg env s m h, WF_emptyState,
   (WF_runLoop env emptyState closed msgs WF_emptyState).2.2⟩

/-- Witness for C1: the AddIndex handler preserves well-formedness at a
concrete input. -/
theorem pairing_invariant_witness :
    WF (handleMsg envAllOk emptyState (.addIndex pSample)).1 :=
  (pairing_invariant envAllOk false []).1 emptyState (.addIndex pSample) WF_emptyState

/-- C2: AddIndex failure atomicity — for an unregistered id, if index-actor
construction fails the handler only logs, and if index construction succeeds
but monitor construction fails the handler logs, synchronously sends stop to
the just-created index actor and joins its task within the handler; in both
cases the registries are exactly as before and nothing is attached to the
Supervisor. -/
theorem addIndex_failure_atomic (env : Env) (s : EngineState) (p : AddParams)
    (hnew : p.id ∉ keysOf s.indexes) :
    (env.indexNew p.id p.dimensions p.connectivity p.expansion_add p.expansion_search
        = none →
      handleMsg env s (.addIndex p) = (s, [.callIndexNew, .logError], false)) ∧
    (∀ hi,
      env.indexNew p.id p.dimensions p.connectivity p.expansion_add p.expansion_search
        = some hi →
      env.monitorItemsNew p.id p.col_id p.col_emb hi = none →
      handleMsg env s (.addIndex p)
        = (s, [.callIndexNew, .callMonitorItemsNew, .logError,
               .actorStop hi, .taskJoin hi], false)) := by
  constructor
  · intro h
    simp [handleMsg, hnew, h]
  · intro hi h1 h2
    simp [handleMsg, hnew, h1, h2]

/-- Witness for C2: the monitor-failure case at a concrete input. -/
theorem addIndex_failure_atomic_witness :
    handleMsg envMonitorFail emptyState (.addIndex pSample)
      = (emptyState, [.callIndexNew, .callMonitorItemsNew, .logError,
                      .actorStop 100, .taskJoin 100], false) :=
  (addIndex_failure_atomic envMonitorFail emptyState pSample (by decide)).2 100 rfl rfl

/-- C3: AddIndex idempotence — when the id is already present in `indexes`,
the handler leaves both registries unchanged, calls neither external
constructor, attaches nothing, and reports no error (empty event trace). -/
theorem addIndex_duplicate_noop (env : Env) (s : EngineState) (p : AddParams)
    (h : p.id ∈ keysOf s.indexes) :
    handleMsg env s (.addIndex p) = (s, [], false) := by
  simp [handleMsg, h]

/-- Witness for C3 at a concrete registered id. -/
theorem addIndex_duplicate_noop_witness :
    handleMsg envAllOk ⟨[(1, 10)], [(1, 20)]⟩ (.addIndex pSample)
      = (⟨[(1, 10)], [(1, 20)]⟩, [], false) :=
  addIndex_duplicate_noop envAllOk ⟨[(1, 10)], [(1, 20)]⟩ pSample (by decide)

/-- C4 (counterexample): the claim says DelIndex on an absent id issues no
instruction to the persistence (modify) actor, but the handler calls
`modify_actor.del(id)` unconditionally: with both registries empty,
processing `DelIndex 7` emits the `modifyDel 7` instruction. -/
theorem delIndex_absent_claim_false :
    7 ∉ keysOf emptyState.indexes ∧ 7 ∉ keysOf emptyState.monitors ∧
    Event.modifyDel 7 ∈ (handleMsg envAllOk emptyState (.delIndex 7)).2.1 := by
  decide

/-- C4 (amended): DelIndex on an id absent from both registries leaves both
registries unchanged, sends no stop to any actor and produces no error; its
only effect is the unconditional `modify_actor.del(id)` instruction to the
persistence actor. -/
theorem delIndex_absent_amended (env : Env) (s : EngineState) (id : IndexId)
    (h1 : id ∉ keysOf s.indexes) (h2 : id ∉ keysOf s.monitors) :
    handleMsg env s (.delIndex id) = (s, [.modifyDel id], false) := by
  have l1 : lookupId s.indexes id = none := (lookupId_eq_none _ _).mpr h1
  have l2 : lookupId s.monitors id = none := (lookupId_eq_none _ _).mpr h2
  simp [handleMsg, l1, l2]

/-- Witness for the amended C4 at a concrete absent id. -/
theorem delIndex_absent_amended_witness :
    handleMsg envAllOk emptyState (.delIndex 7) = (emptyState, [.modifyDel 7], false) :=
  delIndex_absent_amended envAllOk emptyState 7 (by decide) (by decide)

/-- C5: lookup readback — for every Engine state reachable from the empty
registries, GetIndexes replies with exactly the keys of the `indexes` registry
(duplicate-free) without mutating the state, and GetIndex(id) replies with the
stored handle — `some` exactly when the id is registered, `none` otherwise —
also without mutating the state. -/
theorem lookup_readback (env : Env) (closed : Bool) (msgs : List Engine) :
    handleMsg env (runLoop env emptyState closed msgs).1 .getIndexes
      = ((runLoop env emptyState closed msgs).1,
         [.replyIndexes (keysOf ((runLoop env emptyState closed msgs).1).indexes)],
         false) ∧
    (keysOf ((runLoop env emptyState closed msgs).1).indexes).Nodup ∧
    (∀ id, handleMsg env (runLoop env emptyState closed msgs).1 (.getIndex id)
      = ((runLoop env emptyState closed msgs).1,
         [.replyIndex (lookupId ((runLoop env emptyState closed msgs).1).indexes id)],
         false)) ∧
    (∀ id, (lookupId ((runLoop env emptyState closed msgs).1).indexes id).isSome
      ↔ id ∈ keysOf ((runLoop env emptyState closed msgs).1).indexes) := by
  refine ⟨rfl, (WF_runLoop env emptyState closed msgs WF_emptyState).1,
    fun id => rfl, fun id => ?_⟩
  cases hl : lookupId ((runLoop env emptyState closed msgs).1).indexes id with
  | none =>
    simp only [Option.isSome_none, Bool.false_eq_true, false_iff]
    exact (lookupId_eq_none _ _).mp hl
  | some v =>
    simp only [Option.isSome_some, true_iff]
    exact lookupId_mem_keysOf _ _ _ hl

/-- C6: DelIndex on a registered id — the id is removed from both registries,
a graceful-stop message is sent to the removed index actor and to the removed
monitor actor (each removal event strictly precedes the corresponding stop in
the trace), no task is joined (fire-and-forget stop), the persistence actor is
instructed to drop the id, the id is absent from both new registries, and a
subsequent GetIndex on the new state replies `none`. -/
theorem delIndex_present_postcondition (env : Env) (s : EngineState) (id : IndexId)
    (hi hm : Handle)
    (hnd1 : (keysOf s.indexes).Nodup) (hnd2 : (keysOf s.monitors).Nodup)
    (h1 : lookupId s.indexes id = some hi) (h2 : lookupId s.monitors id = some hm) :
    handleMsg env s (.delIndex id)
      = (⟨removeId s.indexes id, removeId s.monitors id⟩,
         [.removeIndexes id, .actorStop hi, .removeMonitors id, .actorStop hm,
          .modifyDel id], false) ∧
    id ∉ keysOf (removeId s.indexes id) ∧
    id ∉ keysOf (removeId s.monitors id) ∧
    (∀ h, Event.taskJoin h ∉ (handleMsg env s (.delIndex id)).2.1) ∧
    (handleMsg env ⟨removeId s.indexes id, removeId s.monitors id⟩ (.getIndex id)).2.1
      = [.replyIndex none] := by
  have heq : handleMsg env s (.delIndex id)
      = (⟨removeId s.indexes id, removeId s.monitors id⟩,
         [.removeIndexes id, .actorStop hi, .removeMonitors id, .actorStop hm,
          .modifyDel id], false) := by
    simp [handleMsg, h1, h2]
  have habs1 : id ∉ keysOf (removeId s.indexes id) := fun hmem =>
    ((mem_keysOf_removeId s.indexes id id hnd1).mp hmem).2 rfl
  have habs2 : id ∉ keysOf (removeId s.monitors id) := fun hmem =>
    ((mem_keysOf_removeId s.monitors id id hnd2).mp hmem).2 rfl
  refine ⟨heq, habs1, habs2, fun h => ?_, ?_⟩
  · rw [heq]
    simp
  · have : lookupId (removeId s.indexes id) id = none :=
      (lookupId_eq_none _ _).mpr habs1
    simp [handleMsg, this]

/-- Witness for C6 at a concrete one-entry state. -/
theorem delIndex_present_postcondition_witness :
    handleMsg envAllOk ⟨[(5, 10)], [(5, 20)]⟩ (.delIndex 5)
      = (⟨[], []⟩,
         [.removeIndexes 5, .actorStop 10, .removeMonitors 5, .actorStop 20,
          .modifyDel 5], false) :=
  (delIndex_present_postcondition envAllOk ⟨[(5, 10)], [(5, 20)]⟩ 5 10 20
    (by decide) (by decide) rfl rfl).1

/-- C7: loop termination discipline — no message other than Stop requests loop
exit; Stop only calls `rx.close()` (mutating nothing, answering nothing); a
closed mailbox rejects new sends while leaving the queue unchanged; every
reply-bearing request in the queue — including those enqueued behind a Stop —
is answered exactly once during the drain; and after draining, the closed flag
is set exactly when a Stop was processed, so the loop exits exactly when the
mailbox is both closed and empty. -/
theorem loop_termination_discipline (env : Env) (s : EngineState) (closed : Bool)
    (msgs : List Engine) :
    (∀ m, isStopMsg m = false → (handleMsg env s m).2.2 = false) ∧
    handleMsg env s .stop = (s, [.closeMailbox], true) ∧
    (∀ q m, sendMsg true q m = (false, q)) ∧
    ((runLoop env s closed msgs).2.2).countP isReplyEvent = msgs.countP expectsReply ∧
    (runLoop env s closed msgs).2.1 = (closed || msgs.any isStopMsg) := by
  refine ⟨fun m hm => ?_, rfl, fun q m => rfl, replyCount_runLoop env s closed msgs,
    closed_runLoop env s closed msgs⟩
  rw [closeReq_handleMsg, hm]

/-- Witness for C7: a non-Stop message does not request loop exit. -/
theorem loop_termination_discipline_witness :
    (handleMsg envAllOk emptyState (.getIndex 3)).2.2 = false :=
  (loop_termination_discipline envAllOk emptyState false []).1 (.getIndex 3) rfl

/-- C8: attach-then-insert ordering — when both constructions succeed for an
unregistered id, the handler's trace attaches the index actor and then the
monitor actor to the Supervisor strictly before the insertions into `indexes`
and `monitors`; the id is invisible to GetIndex before the message (lookup
`none`) and visible with the stored handle after both insertions. -/
theorem addIndex_attach_then_insert (env : Env) (s : EngineState) (p : AddParams)
    (hi hm : Handle) (hnew : p.id ∉ keysOf s.indexes)
    (h1 : env.indexNew p.id p.dimensions p.connectivity p.expansion_add p.expansion_search
        = some hi)
    (h2 : env.monitorItemsNew p.id p.col_id p.col_emb hi = some hm) :
    handleMsg env s (.addIndex p)
      = (⟨s.indexes ++ [(p.id, hi)], s.monitors ++ [(p.id, hm)]⟩,
         [.callIndexNew, .callMonitorItemsNew, .attach hi, .attach hm,
          .insertIndexes p.id, .insertMonitors p.id], false) ∧
    lookupId s.indexes p.id = none ∧
    lookupId (s.indexes ++ [(p.id, hi)]) p.id = some hi ∧
    (handleMsg env ⟨s.indexes ++ [(p.id, hi)], s.monitors ++ [(p.id, hm)]⟩
        (.getIndex p.id)).2.1
      = [.replyIndex (some hi)] := by
  refine ⟨by simp [handleMsg, hnew, h1, h2], (lookupId_eq_none _ _).mpr hnew,
    lookupId_append_self _ _ _ hnew, ?_⟩
  simp [handleMsg, lookupId_append_self _ _ _ hnew]

/-- Witness for C8: a successful AddIndex from the empty state. -/
theorem addIndex_attach_then_insert_witness :
    handleMsg envAllOk emptyState (.addIndex pSample)
      = (⟨[(1, 100)], [(1, 200)]⟩,
         [.callIndexNew, .callMonitorItemsNew, .attach 100, .attach 200,
          .insertIndexes 1, .insertMonitors 1], false) :=
  (addIndex_attach_then_insert envAllOk emptyState pSample 100 200
    (by decide) rfl rfl).1

/-- C9: transport-failure safe defaults — when the send to the Engine mailbox
fails or the reply channel is dropped without an answer, `get_indexes` returns
the empty list and `get_index` returns `none` (never an error, panic or hang:
the wrappers are total functions); `add_index`/`del_index` in the same
situation log a warning and return `()` normally. -/
theorem transport_failure_defaults :
    (∀ r, get_indexes false r = []) ∧ get_indexes true none = [] ∧
    (∀ r, get_index false r = none) ∧ get_index true none = none ∧
    add_index false = ((), [.logWarn]) ∧ del_index false = ((), [.logWarn]) ∧
    add_index true = ((), []) ∧ del_index true = ((), []) :=
  ⟨fun _ => rfl, rfl, fun _ => rfl, rfl, rfl, rfl, rfl, rfl⟩

/-- C10: startup has no rollback — `engine::new` attaches the index-definitions
monitor, the persistence actor and the queries monitor in this order before
spawning the loop; on any construction failure it returns an error without
spawning the loop, and the collaborators already attached stay attached: no
stop is sent and no task is joined. -/
theorem engineNew_no_rollback (a b c : Handle) :
    (∀ x y, engineNew none x y = (false, [])) ∧
    (∀ y, engineNew (some a) none y = (false, [.attach a])) ∧
    engineNew (some a) (some b) none = (false, [.attach a, .attach b]) ∧
    engineNew (some a) (some b) (some c)
      = (true, [.attach a, .attach b, .attach c, .spawnLoop]) ∧
    (∀ x y z h, (engineNew x y z).1 = false →
      Event.spawnLoop ∉ (engineNew x y z).2 ∧
      Event.actorStop h ∉ (engineNew x y z).2 ∧
      Event.taskJoin h ∉ (engineNew x y z).2) := by
  refine ⟨fun x y => rfl, fun y => rfl, rfl, rfl, ?_⟩
  intro x y z h hf
  cases x with
  | none => simp [engineNew]
  | some hmi =>
    cases y with
    | none => simp [engineNew]
    | some hmod =>
      cases z with
      | none => simp [engineNew]
      | some hmq => simp [engineNew] at hf

/-- Witness for C10: failure after two attachments leaves them attached. -/
theorem engineNew_no_rollback_witness :
    Event.spawnLoop ∉ (engineNew (some 1) (some 2) none).2 ∧
    Event.actorStop 1 ∉ (engineNew (some 1) (some 2) none).2 ∧
    Event.taskJoin 1 ∉ (engineNew (some 1) (some 2) none).2 :=
  (engineNew_no_rollback 1 2 3).2.2.2.2 (some 1) (some 2) none 1 rfl
